import Mathlib

/-!
ADNS-9800 optical sensor driver, `keyboards/oddball/adns/adns.c`.

A shallow embedding of the driver and proofs of its register-level protocol.

Target conventions (AVR, avr-gcc): `int` and `unsigned int` are 16 bits wide,
`uint8_t` values are promoted to `int` before arithmetic, and arithmetic that
leaves the 16-bit range keeps the low 16 bits.  Machine integers are natural
numbers with the reduction written out where the C code truncates.

The hardware is a record: the two port registers the driver touches, the bytes
the sensor shifts out on the bus (one per transfer, in order), the number of
transfers made so far, and the log of every hardware action in program order.
-/

namespace Adns

/-! ## Hardware -/

/-- One hardware action of the driver, in the order the program performs it. -/
inductive Event where
  /-- Call of `SPI_Init` with the given option word. -/
  | spiInit (flags : Nat)
  /-- Store of `v` to the data-direction register `DDRB`. -/
  | ddrB (v : Nat)
  /-- Store of `v` to the port register `PORTB`; bit 0 drives the chip-select
  line NCS, which is active low. -/
  | portB (v : Nat)
  /-- One full-duplex byte exchange: `tx` is sent, `rx` is received. -/
  | xfer (tx rx : Nat)
  /-- Call of `wait_us n`. -/
  | waitUs (n : Nat)
  /-- Call of `wait_ms n`. -/
  | waitMs (n : Nat)
  deriving DecidableEq

/-- The state of the hardware as the driver sees it. -/
structure HW where
  /-- Port B output register (8 bits). -/
  PORTB : Nat
  /-- Port B data-direction register (8 bits). -/
  DDRB : Nat
  /-- Byte the sensor shifts out during the `k`-th transfer since power-on. -/
  device : Nat → Nat
  /-- Number of byte transfers made so far. -/
  clk : Nat
  /-- Every hardware action so far, oldest first. -/
  trace : List Event

/-- Byte received on the `k`-th transfer counted from state `s` (`k = 0` is the
next transfer). -/
def rxAt (s : HW) (k : Nat) : Nat := s.device (s.clk + k) % 256

/-- The hardware actions performed between state `s` and the later state `t`. -/
def eventsFrom (s t : HW) : List Event := t.trace.drop s.trace.length

/-- Modelled from the spec: `SPI_TransferByte` of the LUFA SPI driver, which is
not part of this file.  A full-duplex single-byte exchange: the argument
(a `uint8_t`) is sent and the byte concurrently received from the device is
returned. -/
def SPI_TransferByte (b : Nat) (s : HW) : Nat × HW :=
  let rx := s.device s.clk % 256
  (rx, { s with clk := s.clk + 1, trace := s.trace ++ [Event.xfer (b % 256) rx] })

/-- Modelled from the spec: `SPI_Init` of the LUFA SPI driver, which is not part
of this file.  It configures the bus once; the option word is recorded. -/
def SPI_Init (flags : Nat) (s : HW) : HW :=
  { s with trace := s.trace ++ [Event.spiInit flags] }

/-- Modelled from the spec: `wait_us`, a blocking wait of `n` microseconds,
defined outside this file. -/
def wait_us (n : Nat) (s : HW) : HW :=
  { s with trace := s.trace ++ [Event.waitUs n] }

/-- Modelled from the spec: `wait_ms`, a blocking wait of `n` milliseconds,
defined outside this file. -/
def wait_ms (n : Nat) (s : HW) : HW :=
  { s with trace := s.trace ++ [Event.waitMs n] }

/-! ## Registers and pins -/

def REG_Motion : Nat := 0x02
def REG_Delta_X_L : Nat := 0x03
def REG_Delta_X_H : Nat := 0x04
def REG_Delta_Y_L : Nat := 0x05
def REG_Delta_Y_H : Nat := 0x06
def REG_Configuration_I : Nat := 0x0f
def REG_SROM_Enable : Nat := 0x13
def REG_LASER_CTRL0 : Nat := 0x20
def REG_Configuration_IV : Nat := 0x39
def REG_Power_Up_Reset : Nat := 0x3a
def REG_Motion_Burst : Nat := 0x50
def REG_SROM_Load_Burst : Nat := 0x62

/-- Pin number of the chip-select line on port B. -/
def NCS : Nat := 0

/-- Bitwise complement of a 16-bit `int`/`unsigned int`. -/
def not16 (x : Nat) : Nat := 65535 - x % 65536

/-- Conversion of a 16-bit pattern to `int16_t`. -/
def toInt16 (n : Nat) : Int :=
  if n % 65536 < 32768 then ((n % 65536 : Nat) : Int) else ((n % 65536 : Nat) : Int) - 65536

/-! ## The driver -/

/-- Source: `PORTB &= ~(1 << NCS);`, a read-modify-write of the 8-bit port register;
`~(1 << NCS)` is formed as a 16-bit `int`. -/
def adns_begin (s : HW) : HW :=
  let v := (s.PORTB &&& not16 (1 <<< NCS)) % 256
  { s with PORTB := v, trace := s.trace ++ [Event.portB v] }

/-- Source: `PORTB |= (1 << NCS);`, a read-modify-write of the 8-bit port register. -/
def adns_end (s : HW) : HW :=
  let v := (s.PORTB ||| (1 <<< NCS)) % 256
  { s with PORTB := v, trace := s.trace ++ [Event.portB v] }

def adns_write (reg_addr data : Nat) (s : HW) : HW :=
  let s := adns_begin s
  let s := (SPI_TransferByte (reg_addr ||| 0x80) s).2
  let s := (SPI_TransferByte data s).2
  let s := wait_us 20 s
  let s := adns_end s
  wait_us 100 s

def adns_read (reg_addr : Nat) (s : HW) : Nat × HW :=
  let s := adns_begin s
  let s := (SPI_TransferByte (reg_addr &&& 0x7f) s).2
  let r := SPI_TransferByte 0 s
  let data := r.1
  let s := wait_us 1 r.2
  let s := adns_end s
  let s := wait_us 19 s
  (data, s)

/-- The firmware image: the externs `firmware_length` (a `uint16_t`) and
`firmware_data` (read with `pgm_read_byte(firmware_data + i)`), supplied by the
header `adns9800_srom_A6.h`. -/
structure Firmware where
  firmware_length : Nat
  firmware_data : Nat → Nat

/-- The image whose bytes are the given list. -/
def Firmware.ofList (l : List Nat) : Firmware :=
  { firmware_length := l.length, firmware_data := fun i => l.getD i 0 }

/-- Source: `adns_init`.  `spi_flags` is the option word
`SPI_SPEED_FCPU_DIV_8 | SPI_ORDER_MSB_FIRST | SPI_SCK_LEAD_FALLING |
SPI_SAMPLE_TRAILING | SPI_MODE_MASTER`, whose constants come from the LUFA
header.  The `for` loop counts `i` in a 16-bit `int` and tests
`i < firmware_length` as `unsigned int`; with 16-bit wrap-around its body runs
once for each `i = 0 .. firmware_length - 1`, in that order. -/
def adns_init (spi_flags : Nat) (fw : Firmware) (s : HW) : HW :=
  -- mode 3
  let s := SPI_Init spi_flags s
  -- set B0 output
  let d := (s.DDRB ||| (1 <<< 0)) % 256
  let s := { s with DDRB := d, trace := s.trace ++ [Event.ddrB d] }
  -- reset serial port
  let s := adns_end s
  let s := adns_begin s
  let s := adns_end s
  -- reboot
  let s := adns_write REG_Power_Up_Reset 0x5a s
  let s := wait_ms 50 s
  -- read registers and discard
  let s := (adns_read REG_Motion s).2
  let s := (adns_read REG_Delta_X_L s).2
  let s := (adns_read REG_Delta_X_H s).2
  let s := (adns_read REG_Delta_Y_L s).2
  let s := (adns_read REG_Delta_Y_H s).2
  -- upload firmware
  let s := adns_write REG_Configuration_IV 0x02 s
  let s := adns_write REG_SROM_Enable 0x1d s
  let s := wait_ms 10 s
  let s := adns_write REG_SROM_Enable 0x18 s
  -- write the SROM file
  let s := adns_begin s
  let s := (SPI_TransferByte (REG_SROM_Load_Burst ||| 0x80) s).2
  let s := wait_us 15 s
  let s := (List.range fw.firmware_length).foldl
    (fun s i =>
      let c := fw.firmware_data i % 256
      let s := (SPI_TransferByte c s).2
      wait_us 15 s) s
  let s := adns_end s
  let s := wait_ms 10 s
  -- enable laser
  let r := adns_read REG_LASER_CTRL0 s
  let laser_ctrl0 := r.1
  let s := adns_write REG_LASER_CTRL0 (laser_ctrl0 &&& 0xf0) r.2
  wait_ms 1 s

/-- Modelled from the spec: the `cpi` field of `config_adns_t`, declared in
`adns.h`, which is not part of this file.  The spec gives its range as
`0 .. 255 * 200 = 51000`; it is an unsigned 16-bit field, and a value stored to
it is reduced modulo `CPI_RANGE`. -/
def CPI_RANGE : Nat := 65536

/-- Source: `adns_get_config`; the result is the `cpi` field of the returned struct.
The product is formed in 16-bit `int` arithmetic and stored to the field. -/
def adns_get_config (s : HW) : Nat × HW :=
  let r := adns_read REG_Configuration_I s
  let config_1 := r.1
  ((((config_1 &&& 0xFF) * 200) % 65536) % CPI_RANGE, r.2)

/-- Source: `adns_set_config`; `cpi` is the `cpi` field of the argument struct. -/
def adns_set_config (cpi : Nat) (s : HW) : HW :=
  let config_1 := ((cpi / 200) &&& 0xFF) % 256
  let s := adns_write REG_Configuration_I config_1 s
  wait_ms 100 s

def convertDeltaToInt (high low : Nat) : Int :=
  -- join bytes into twos compliment
  let twos_comp := ((high <<< 8) ||| low) % 65536
  -- convert twos comp to int
  if twos_comp &&& 0x8000 ≠ 0 then
    toInt16 ((65535 * ((not16 twos_comp + 1) % 65536)) % 65536)
  else
    toInt16 twos_comp

/-- Modelled from the spec: `report_adns_t`, declared in `adns.h`, which is not
part of this file: a pair of signed 16-bit integers. -/
structure report_adns_t where
  x : Int
  y : Int
  deriving DecidableEq

def adns_get_report (s : HW) : report_adns_t × HW :=
  let s := adns_begin s
  -- start burst mode
  let s := (SPI_TransferByte (REG_Motion_Burst &&& 0x7f) s).2
  -- motion register
  let s := (SPI_TransferByte 0 s).2
  -- observation register
  let s := (SPI_TransferByte 0 s).2
  -- delta registers
  let r := SPI_TransferByte 0 s
  let delta_x_l := r.1
  let r := SPI_TransferByte 0 r.2
  let delta_x_h := r.1
  let r := SPI_TransferByte 0 r.2
  let delta_y_l := r.1
  let r := SPI_TransferByte 0 r.2
  let delta_y_h := r.1
  let s := adns_end r.2
  ({ x := convertDeltaToInt delta_x_h delta_x_l,
     y := convertDeltaToInt delta_y_h delta_y_l }, s)

/-! ## Vocabulary for stating the protocol -/

/-- The 8-bit port value `p` with bit 0 cleared and bits 1..7 kept: chip-select
asserted (NCS low). -/
def csAssert (p : Nat) : Nat := p % 256 / 2 * 2

/-- The 8-bit port value `p` with bit 0 set and bits 1..7 kept: chip-select
de-asserted (NCS high). -/
def csRelease (p : Nat) : Nat := p % 256 / 2 * 2 + 1

/-- The twos-complement signed 16-bit reading of `v`, for `v < 65536`. -/
def signed16 (v : Nat) : Int := if v < 32768 then (v : Int) else (v : Int) - 65536

/-- A state with every register zero, no traffic yet and a sensor that answers
`0xA5` to every transfer. -/
def hw0 : HW := { PORTB := 0, DDRB := 0, device := fun _ => 0xA5, clk := 0, trace := [] }

/-- The byte sent by an event, when the event is a transfer. -/
def txOf : Event → Option Nat
  | Event.xfer tx _ => some tx
  | _ => none

/-- The hardware actions of one register write with port value `p` on entry:
address `a` with the write flag, data `v`; `r0`, `r1` are the bytes received. -/
def writeEvents (p a v r0 r1 : Nat) : List Event :=
  [Event.portB (csAssert p), Event.xfer (a ||| 0x80) r0, Event.xfer v r1,
   Event.waitUs 20, Event.portB (csRelease p), Event.waitUs 100]

/-- The hardware actions of one register read with port value `p` on entry:
address `a` without the write flag, then a dummy 0; `r1` is the byte read. -/
def readEvents (p a r0 r1 : Nat) : List Event :=
  [Event.portB (csAssert p), Event.xfer (a &&& 0x7f) r0, Event.xfer 0 r1,
   Event.waitUs 1, Event.portB (csRelease p), Event.waitUs 19]

/-- The data part of the firmware burst: every image byte in index order, each
followed by a 15 us wait; the `i`-th exchange is transfer number `k + i`
counted from state `s`. -/
def burstData (fw : Firmware) (s : HW) (k : Nat) : List Event :=
  (List.range fw.firmware_length).flatMap
    (fun i => [Event.xfer (fw.firmware_data i % 256) (rxAt s (k + i)), Event.waitUs 15])

/-- The hardware actions of `adns_init` before the firmware burst. -/
def bootHead (spi_flags : Nat) (s : HW) : List Event :=
  [Event.spiInit spi_flags, Event.ddrB ((s.DDRB ||| 1) % 256),
   Event.portB (csRelease s.PORTB), Event.portB (csAssert s.PORTB),
   Event.portB (csRelease s.PORTB)]
  ++ writeEvents s.PORTB 0x3a 0x5a (rxAt s 0) (rxAt s 1)
  ++ [Event.waitMs 50]
  ++ readEvents s.PORTB 0x02 (rxAt s 2) (rxAt s 3)
  ++ readEvents s.PORTB 0x03 (rxAt s 4) (rxAt s 5)
  ++ readEvents s.PORTB 0x04 (rxAt s 6) (rxAt s 7)
  ++ readEvents s.PORTB 0x05 (rxAt s 8) (rxAt s 9)
  ++ readEvents s.PORTB 0x06 (rxAt s 10) (rxAt s 11)
  ++ writeEvents s.PORTB 0x39 0x02 (rxAt s 12) (rxAt s 13)
  ++ writeEvents s.PORTB 0x13 0x1d (rxAt s 14) (rxAt s 15)
  ++ [Event.waitMs 10]
  ++ writeEvents s.PORTB 0x13 0x18 (rxAt s 16) (rxAt s 17)

/-- The hardware actions of the firmware burst of `adns_init`. -/
def sromBurst (fw : Firmware) (s : HW) : List Event :=
  [Event.portB (csAssert s.PORTB), Event.xfer 0xE2 (rxAt s 18), Event.waitUs 15]
  ++ burstData fw s 19
  ++ [Event.portB (csRelease s.PORTB)]

/-- The hardware actions of `adns_init` after the firmware burst, for an image
of `n` bytes. -/
def bootTail (n : Nat) (s : HW) : List Event :=
  [Event.waitMs 10]
  ++ readEvents s.PORTB 0x20 (rxAt s (19 + n)) (rxAt s (20 + n))
  ++ writeEvents s.PORTB 0x20 (rxAt s (20 + n) &&& 0xf0) (rxAt s (21 + n)) (rxAt s (22 + n))
  ++ [Event.waitMs 1]

/-- A state with every register zero, no traffic yet and an idle sensor that
answers 0 to every transfer. -/
def hwIdle : HW := { PORTB := 0, DDRB := 0, device := fun _ => 0, clk := 0, trace := [] }

/-- The bus transactions of a log, oldest first: one per chip-select assertion,
each the list of (sent, received) byte pairs exchanged while the line was held.
`cur` is the transaction open at the start of the log, if any.  An assertion
released without a transfer (a select pulse) is the empty transaction; a
transfer made while the line is released counts as a transaction of its own. -/
def transactions : Option (List (Nat × Nat)) → List Event → List (List (Nat × Nat))
  | some f, [] => [f]
  | none, [] => []
  | some f, Event.portB v :: t =>
      if v % 2 = 0 then f :: transactions (some []) t else f :: transactions none t
  | none, Event.portB v :: t =>
      if v % 2 = 0 then transactions (some []) t else transactions none t
  | some f, Event.xfer tx rx :: t => transactions (some (f ++ [(tx, rx)])) t
  | none, Event.xfer tx rx :: t => [(tx, rx)] :: transactions none t
  | cur, _ :: t => transactions cur t

/-- Chip-select discipline of a log, given whether the line is asserted (`cs`)
at its start: no store to the port asserts the line while it is asserted, every
transfer is made while it is asserted, and it is released at the end. -/
def disciplined : Bool → List Event → Bool
  | cs, [] => !cs
  | cs, Event.portB v :: t =>
      if v % 2 = 0 then !cs && disciplined true t else disciplined false t
  | cs, Event.xfer _ _ :: t => cs && disciplined cs t
  | cs, _ :: t => disciplined cs t

/-- Whether chip-select is asserted in a state: NCS is bit 0 of `PORTB`, active low. -/
def csAsserted (s : HW) : Bool := decide (s.PORTB % 2 = 0)

/-- One call of the driver. -/
inductive Op where
  | init (spi_flags : Nat) (fw : Firmware)
  | get_config
  | set_config (cpi : Nat)
  | get_report
  | read (reg_addr : Nat)
  | write (reg_addr data : Nat)

/-- The effect of one call on the hardware. -/
def Op.run : Op → HW → HW
  | Op.init spi_flags fw, s => adns_init spi_flags fw s
  | Op.get_config, s => (adns_get_config s).2
  | Op.set_config cpi, s => adns_set_config cpi s
  | Op.get_report, s => (adns_get_report s).2
  | Op.read reg_addr, s => (adns_read reg_addr s).2
  | Op.write reg_addr data, s => adns_write reg_addr data s

/-- The effect of a sequence of calls, made one after the other. -/
def runOps : List Op → HW → HW
  | [], s => s
  | op :: ops, s => runOps ops (op.run s)

/-! ## Delta decoding -/

theorem join_bytes (high low : Nat) (hl : low < 256) :
    (high <<< 8) ||| low = high * 256 + low := by
  have h := Nat.mul_add_lt_is_or (i := 8) (b := low) (by simpa using hl) high
  rw [Nat.shiftLeft_eq]
  simp only [Nat.reducePow] at h ⊢
  rw [Nat.mul_comm high 256, ← h]

theorem sign_bit_iff (v : Nat) (hv : v < 65536) : v &&& 0x8000 ≠ 0 ↔ 32768 ≤ v := by
  have h2 : (0x8000 : Nat) = 2 ^ 15 := by norm_num
  rw [h2, Nat.and_two_pow]
  rw [Nat.testBit_to_div_mod]
  by_cases h : 32768 ≤ v
  · have : v / 32768 % 2 = 1 := by omega
    simp [this, h]
  · have : v / 32768 % 2 = 0 := by omega
    simp [this, h]

theorem convertDeltaToInt_eq (high low : Nat) (hh : high < 256) (hl : low < 256) :
    convertDeltaToInt high low = signed16 (high * 256 + low) := by
  have hv : high * 256 + low < 65536 := by omega
  unfold convertDeltaToInt signed16
  simp only [join_bytes high low hl, Nat.mod_eq_of_lt hv, sign_bit_iff _ hv]
  by_cases h : 32768 ≤ high * 256 + low
  · have h1 : ¬ (high * 256 + low < 32768) := by omega
    simp only [h, h1, if_true, if_false, toInt16, not16, Nat.mod_eq_of_lt hv]
    have e : (65535 * ((65535 - (high * 256 + low) + 1) % 65536)) % 65536 = high * 256 + low := by
      omega
    simp only [e, Nat.mod_eq_of_lt hv, h1, if_false]
  · have h1 : high * 256 + low < 32768 := by omega
    simp only [h, h1, if_true, if_false, toInt16, Nat.mod_eq_of_lt hv]

/-- C1. For all bytes `high`, `low`, `convertDeltaToInt high low` is the
twos-complement signed 16-bit reading of `v = high * 256 + low`: `v` below
32768 and `v - 65536` from 32768 on; so `0xFF,0xFF` gives -1, `0x80,0x00` gives
-32768, `0x7F,0xFF` gives 32767 and `0x00,0x00` gives 0. -/
theorem convertDeltaToInt_twos_complement (high low : Nat) (hh : high < 256) (hl : low < 256) :
    convertDeltaToInt high low =
        (if high * 256 + low < 32768 then ((high * 256 + low : Nat) : Int)
         else ((high * 256 + low : Nat) : Int) - 65536)
      ∧ convertDeltaToInt 0xFF 0xFF = -1
      ∧ convertDeltaToInt 0x80 0x00 = -32768
      ∧ convertDeltaToInt 0x7F 0xFF = 32767
      ∧ convertDeltaToInt 0x00 0x00 = 0 := by
  refine ⟨?_, by decide, by decide, by decide, by decide⟩
  rw [convertDeltaToInt_eq high low hh hl]
  rfl

theorem convertDeltaToInt_twos_complement_witness :
    convertDeltaToInt 0x92 0x34 =
        (if 0x92 * 256 + 0x34 < 32768 then ((0x92 * 256 + 0x34 : Nat) : Int)
         else ((0x92 * 256 + 0x34 : Nat) : Int) - 65536)
      ∧ convertDeltaToInt 0xFF 0xFF = -1
      ∧ convertDeltaToInt 0x80 0x00 = -32768
      ∧ convertDeltaToInt 0x7F 0xFF = 32767
      ∧ convertDeltaToInt 0x00 0x00 = 0 :=
  convertDeltaToInt_twos_complement 0x92 0x34 (by decide) (by decide)

/-! ## Port arithmetic -/

theorem begin_val (p : Nat) : (p &&& not16 (1 <<< NCS)) % 256 = csAssert p := by
  have h1 : not16 (1 <<< NCS) = 65534 := by decide
  have hd : (p &&& 65534) / 2 = p / 2 % 32768 := by
    rw [Nat.and_div_two]
    exact Nat.and_pow_two_sub_one_eq_mod (p / 2) 15
  have hm : (p &&& 65534) % 2 = 0 := by
    have := @Nat.and_mod_two_eq_one p 65534
    omega
  rw [h1]
  unfold csAssert
  omega

theorem end_val (p : Nat) : (p ||| (1 <<< NCS)) % 256 = csRelease p := by
  have h1 : (1 <<< NCS) = 1 := by decide
  have hd : (p ||| 1) / 2 = p / 2 := by
    rw [Nat.or_div_two]
    simp
  have hm : (p ||| 1) % 2 = 1 := by
    rw [Nat.or_mod_two_eq_one]
    right
    rfl
  rw [h1]
  unfold csRelease
  omega

@[simp] theorem csAssert_csRelease (p : Nat) : csAssert (csRelease p) = csAssert p := by
  unfold csAssert csRelease
  omega

@[simp] theorem csRelease_csAssert (p : Nat) : csRelease (csAssert p) = csRelease p := by
  unfold csAssert csRelease
  omega

@[simp] theorem csRelease_csRelease (p : Nat) : csRelease (csRelease p) = csRelease p := by
  unfold csRelease
  omega

@[simp] theorem csAssert_csAssert (p : Nat) : csAssert (csAssert p) = csAssert p := by
  unfold csAssert
  omega

@[simp] theorem csAssert_mod_two (p : Nat) : csAssert p % 2 = 0 := by
  unfold csAssert
  omega

@[simp] theorem csRelease_mod_two (p : Nat) : csRelease p % 2 = 1 := by
  unfold csRelease
  omega

/-! ## The bus primitives and the register access layer -/

theorem adns_begin_eq (s : HW) :
    adns_begin s =
      { s with PORTB := csAssert s.PORTB,
               trace := s.trace ++ [Event.portB (csAssert s.PORTB)] } := by
  simp only [adns_begin, begin_val]

theorem adns_end_eq (s : HW) :
    adns_end s =
      { s with PORTB := csRelease s.PORTB,
               trace := s.trace ++ [Event.portB (csRelease s.PORTB)] } := by
  simp only [adns_end, end_val]

theorem adns_write_eq (a v : Nat) (s : HW) :
    adns_write a v s =
      { s with
        PORTB := csRelease s.PORTB
        clk := s.clk + 2
        trace := s.trace ++
          [Event.portB (csAssert s.PORTB),
           Event.xfer ((a ||| 0x80) % 256) (rxAt s 0),
           Event.xfer (v % 256) (rxAt s 1),
           Event.waitUs 20,
           Event.portB (csRelease s.PORTB),
           Event.waitUs 100] } := by
  simp [adns_write, adns_begin_eq, adns_end_eq, SPI_TransferByte, wait_us, rxAt]

theorem adns_read_eq (a : Nat) (s : HW) :
    adns_read a s =
      (rxAt s 1,
       { s with
         PORTB := csRelease s.PORTB
         clk := s.clk + 2
         trace := s.trace ++
           [Event.portB (csAssert s.PORTB),
            Event.xfer ((a &&& 0x7f) % 256) (rxAt s 0),
            Event.xfer 0 (rxAt s 1),
            Event.waitUs 1,
            Event.portB (csRelease s.PORTB),
            Event.waitUs 19] }) := by
  simp [adns_read, adns_begin_eq, adns_end_eq, SPI_TransferByte, wait_us, rxAt]

theorem eventsFrom_append (s t : HW) (es : List Event) (h : t.trace = s.trace ++ es) :
    eventsFrom s t = es := by
  simp [eventsFrom, h]

theorem or_msb (a : Nat) (ha : a < 256) : (a ||| 0x80) % 256 = a ||| 0x80 :=
  Nat.mod_eq_of_lt (Nat.or_lt_two_pow (n := 8) ha (by decide))

theorem and_low7 (a : Nat) : (a &&& 0x7f) % 256 = a &&& 0x7f :=
  Nat.mod_eq_of_lt (Nat.lt_trans (Nat.and_lt_two_pow (n := 7) a (by decide)) (by decide))

theorem and_hi_nibble (v : Nat) : (v &&& 0xf0) % 256 = v &&& 0xf0 :=
  Nat.mod_eq_of_lt (Nat.and_lt_two_pow (n := 8) v (by decide))

theorem rxAt_lt (s : HW) (k : Nat) : rxAt s k < 256 := Nat.mod_lt _ (by decide)

theorem srom_loop_eq (fw : Firmware) (n : Nat) (s : HW) :
    (List.range n).foldl
        (fun s i => wait_us 15 (SPI_TransferByte (fw.firmware_data i % 256) s).2) s =
      { s with
        clk := s.clk + n
        trace := s.trace ++ (List.range n).flatMap
          (fun i => [Event.xfer (fw.firmware_data i % 256) (rxAt s i), Event.waitUs 15]) } := by
  induction n with
  | zero => simp
  | succ n ih =>
    rw [List.range_succ, List.foldl_append, ih]
    simp [SPI_TransferByte, wait_us, rxAt, Nat.add_assoc]

theorem adns_init_eq (spi_flags : Nat) (fw : Firmware) (s : HW) :
    adns_init spi_flags fw s =
      { PORTB := csRelease s.PORTB
        DDRB := (s.DDRB ||| 1) % 256
        device := s.device
        clk := s.clk + (fw.firmware_length + 23)
        trace := s.trace ++
          (bootHead spi_flags s ++ sromBurst fw s ++ bootTail fw.firmware_length s) } := by
  have e1 : 19 + (fw.firmware_length + 1) = 20 + fw.firmware_length := by omega
  have e2 : 19 + (fw.firmware_length + 2) = 21 + fw.firmware_length := by omega
  have e3 : 19 + (fw.firmware_length + 3) = 22 + fw.firmware_length := by omega
  have e4 : 19 + (fw.firmware_length + 4) = fw.firmware_length + 23 := by omega
  unfold adns_init
  simp only [srom_loop_eq]
  simp [e1, e2, e3, e4, and_low7, adns_write_eq, adns_read_eq, adns_begin_eq, adns_end_eq, SPI_Init, wait_ms, wait_us,
    SPI_TransferByte, rxAt, bootHead, sromBurst, bootTail, burstData, writeEvents, readEvents,
    REG_Power_Up_Reset, REG_Motion, REG_Delta_X_L, REG_Delta_X_H, REG_Delta_Y_L, REG_Delta_Y_H,
    REG_Configuration_IV, REG_SROM_Enable, REG_SROM_Load_Burst, REG_LASER_CTRL0,
    Nat.add_assoc, and_hi_nibble]
  have e5 : 21 + (fw.firmware_length + 1) = 22 + fw.firmware_length := by omega
  rw [e5]
  exact ⟨by omega, rfl⟩

theorem adns_set_config_eq (cpi : Nat) (s : HW) :
    adns_set_config cpi s =
      { s with
        PORTB := csRelease s.PORTB
        clk := s.clk + 2
        trace := s.trace ++
          [Event.portB (csAssert s.PORTB),
           Event.xfer 0x8F (rxAt s 0),
           Event.xfer (cpi / 200 % 256) (rxAt s 1),
           Event.waitUs 20,
           Event.portB (csRelease s.PORTB),
           Event.waitUs 100,
           Event.waitMs 100] } := by
  have h : (cpi / 200 &&& 0xFF) = cpi / 200 % 256 := Nat.and_pow_two_sub_one_eq_mod (cpi / 200) 8
  simp [adns_set_config, adns_write_eq, wait_ms, REG_Configuration_I, h]

theorem adns_get_config_eq (s : HW) :
    adns_get_config s =
      (rxAt s 1 * 200,
       { s with
         PORTB := csRelease s.PORTB
         clk := s.clk + 2
         trace := s.trace ++
           [Event.portB (csAssert s.PORTB),
            Event.xfer 0x0F (rxAt s 0),
            Event.xfer 0 (rxAt s 1),
            Event.waitUs 1,
            Event.portB (csRelease s.PORTB),
            Event.waitUs 19] }) := by
  have hr := rxAt_lt s 1
  have h : (rxAt s 1 &&& 0xFF) = rxAt s 1 % 256 := Nat.and_pow_two_sub_one_eq_mod (rxAt s 1) 8
  have h2 : rxAt s 1 * 200 % 65536 % CPI_RANGE = rxAt s 1 * 200 := by
    unfold CPI_RANGE
    omega
  simp only [adns_get_config, adns_read_eq, h, Nat.mod_eq_of_lt hr, h2]
  simp [REG_Configuration_I]
  decide

theorem adns_get_report_eq (s : HW) :
    adns_get_report s =
      ({ x := convertDeltaToInt (rxAt s 4) (rxAt s 3),
         y := convertDeltaToInt (rxAt s 6) (rxAt s 5) },
       { s with
         PORTB := csRelease s.PORTB
         clk := s.clk + 7
         trace := s.trace ++
           [Event.portB (csAssert s.PORTB),
            Event.xfer 0x50 (rxAt s 0),
            Event.xfer 0 (rxAt s 1),
            Event.xfer 0 (rxAt s 2),
            Event.xfer 0 (rxAt s 3),
            Event.xfer 0 (rxAt s 4),
            Event.xfer 0 (rxAt s 5),
            Event.xfer 0 (rxAt s 6),
            Event.portB (csRelease s.PORTB)] }) := by
  simp [adns_get_report, adns_begin_eq, adns_end_eq, SPI_TransferByte, rxAt, REG_Motion_Burst,
    Nat.add_assoc]
  decide

set_option maxRecDepth 100000 in
theorem or_msb_val : ∀ a : Nat, a < 256 → a ||| 0x80 = a % 128 + 128 := by
  decide

set_option maxRecDepth 100000 in
theorem hi_nibble_val : ∀ v : Nat, v < 256 → (v &&& 0xf0) % 16 = 0 ∧ (v &&& 0xf0) / 16 = v / 16 := by
  decide

/-! ## Register access layer: the contracts -/

/-- C7. For every address byte and value byte, `adns_write address value` does
exactly this and nothing else: assert chip-select, transfer `address | 0x80`
(the address with its top bit set), transfer `value`, wait 20 us, de-assert
chip-select, wait 100 us. -/
theorem adns_write_sequence (address value : Nat) (s : HW)
    (ha : address < 256) (hv : value < 256) :
    adns_write address value s =
        { s with
          PORTB := csRelease s.PORTB
          clk := s.clk + 2
          trace := s.trace ++
            [Event.portB (csAssert s.PORTB),
             Event.xfer (address ||| 0x80) (rxAt s 0),
             Event.xfer value (rxAt s 1),
             Event.waitUs 20,
             Event.portB (csRelease s.PORTB),
             Event.waitUs 100] }
      ∧ address ||| 0x80 = address % 128 + 128 := by
  refine ⟨?_, or_msb_val address ha⟩
  rw [adns_write_eq, or_msb address ha, Nat.mod_eq_of_lt hv]

theorem adns_write_sequence_witness :
    0x3a < 256 ∧ 0x5a < 256 ∧
      eventsFrom hw0 (adns_write 0x3a 0x5a hw0) =
        [Event.portB 0, Event.xfer 0xBA 0xA5, Event.xfer 0x5A 0xA5, Event.waitUs 20,
         Event.portB 1, Event.waitUs 100] := by
  refine ⟨by decide, by decide, ?_⟩
  rw [(adns_write_sequence 0x3a 0x5a hw0 (by decide) (by decide)).1]
  decide

/-- C8. For every address byte, `adns_read address` does exactly this: assert
chip-select, transfer `address & 0x7F` (the address with its top bit clear),
transfer the dummy 0, wait 1 us, de-assert chip-select, wait 19 us; and it
returns the byte received during the second transfer, not the one received
while the address was sent. -/
theorem adns_read_sequence (address : Nat) (s : HW) :
    adns_read address s =
        (rxAt s 1,
         { s with
           PORTB := csRelease s.PORTB
           clk := s.clk + 2
           trace := s.trace ++
             [Event.portB (csAssert s.PORTB),
              Event.xfer (address &&& 0x7F) (rxAt s 0),
              Event.xfer 0 (rxAt s 1),
              Event.waitUs 1,
              Event.portB (csRelease s.PORTB),
              Event.waitUs 19] })
      ∧ address &&& 0x7F = address % 128 := by
  refine ⟨?_, Nat.and_pow_two_sub_one_eq_mod address 7⟩
  rw [adns_read_eq, and_low7]

/-! ## Configuration accessor -/

/-- C3. For every `cpi`, `adns_set_config cpi` makes exactly one register
write, to register 0x0F (sent as 0x8F), of the byte `cpi / 200` reduced to 8
bits, then waits 100 ms.  For `cpi = 199` the byte written is 0, and when the
following read of register 0x0F returns the byte that was written,
`adns_get_config` returns 0. -/
theorem adns_set_config_sequence (cpi : Nat) (s t : HW)
    (hrb : (eventsFrom t (adns_set_config 199 t)).filterMap txOf =
      [REG_Configuration_I ||| 0x80,
       (adns_read REG_Configuration_I (adns_set_config 199 t)).1]) :
    adns_set_config cpi s =
        { s with
          PORTB := csRelease s.PORTB
          clk := s.clk + 2
          trace := s.trace ++
            [Event.portB (csAssert s.PORTB),
             Event.xfer (0x0F ||| 0x80) (rxAt s 0),
             Event.xfer (cpi / 200 % 256) (rxAt s 1),
             Event.waitUs 20,
             Event.portB (csRelease s.PORTB),
             Event.waitUs 100,
             Event.waitMs 100] }
      ∧ eventsFrom t (adns_set_config 199 t) =
          [Event.portB (csAssert t.PORTB),
           Event.xfer (0x0F ||| 0x80) (rxAt t 0),
           Event.xfer 0 (rxAt t 1),
           Event.waitUs 20,
           Event.portB (csRelease t.PORTB),
           Event.waitUs 100,
           Event.waitMs 100]
      ∧ (adns_get_config (adns_set_config 199 t)).1 = 0 := by
  refine ⟨adns_set_config_eq cpi s, ?_, ?_⟩
  · rw [adns_set_config_eq]
    simp [eventsFrom]
  · rw [adns_set_config_eq] at hrb ⊢
    rw [adns_read_eq] at hrb
    rw [adns_get_config_eq]
    simp [eventsFrom, txOf, rxAt] at hrb
    simp [rxAt, ← hrb]

theorem adns_set_config_sequence_witness :
    (eventsFrom hwIdle (adns_set_config 199 hwIdle)).filterMap txOf =
        [REG_Configuration_I ||| 0x80,
         (adns_read REG_Configuration_I (adns_set_config 199 hwIdle)).1]
      ∧ eventsFrom hw0 (adns_set_config 1600 hw0) =
          [Event.portB 0, Event.xfer 0x8F 0xA5, Event.xfer 8 0xA5, Event.waitUs 20,
           Event.portB 1, Event.waitUs 100, Event.waitMs 100]
      ∧ (adns_get_config (adns_set_config 199 hwIdle)).1 = 0 := by
  have h := adns_set_config_sequence 1600 hw0 hwIdle (by decide)
  refine ⟨by decide, ?_, h.2.2⟩
  rw [h.1]
  decide

/-- C2. For every `cpi` that is a multiple of 200 with `0 ≤ cpi ≤ 51000`, when
the read of register 0x0F made by `adns_get_config` returns the byte that
`adns_set_config cpi` wrote to it, `adns_get_config` after
`adns_set_config cpi` returns exactly `cpi`. -/
theorem config_round_trip (cpi : Nat) (s : HW)
    (hmul : cpi % 200 = 0) (hmax : cpi ≤ 51000)
    (hrb : (eventsFrom s (adns_set_config cpi s)).filterMap txOf =
      [REG_Configuration_I ||| 0x80,
       (adns_read REG_Configuration_I (adns_set_config cpi s)).1]) :
    (adns_get_config (adns_set_config cpi s)).1 = cpi := by
  rw [adns_set_config_eq] at hrb ⊢
  rw [adns_read_eq] at hrb
  rw [adns_get_config_eq]
  simp [eventsFrom, txOf, rxAt] at hrb
  simp only [rxAt, ← hrb]
  omega

theorem config_round_trip_witness :
    33000 % 200 = 0 ∧ 33000 ≤ 51000 ∧
      (adns_get_config (adns_set_config 33000 hw0)).1 = 33000 :=
  ⟨by decide, by decide, config_round_trip 33000 hw0 (by decide) (by decide) (by decide)⟩

/-! ## Motion report -/

/-- C6. For every stream of bytes returned by the device, `adns_get_report`
does exactly this: assert chip-select, transfer 0x50, six transfers of the
dummy 0, de-assert chip-select, with no wait in between; the bytes received on
the first two dummy transfers are not used, and with `b3 .. b6` the bytes
received on the last four, the report is `x = decode b4 b3`, `y = decode b6 b5`,
the signed 16-bit readings of `b4 * 256 + b3` and `b6 * 256 + b5`. -/
theorem adns_get_report_sequence (s : HW) :
    adns_get_report s =
        ({ x := convertDeltaToInt (rxAt s 4) (rxAt s 3),
           y := convertDeltaToInt (rxAt s 6) (rxAt s 5) },
         { s with
           PORTB := csRelease s.PORTB
           clk := s.clk + 7
           trace := s.trace ++
             [Event.portB (csAssert s.PORTB),
              Event.xfer 0x50 (rxAt s 0),
              Event.xfer 0 (rxAt s 1),
              Event.xfer 0 (rxAt s 2),
              Event.xfer 0 (rxAt s 3),
              Event.xfer 0 (rxAt s 4),
              Event.xfer 0 (rxAt s 5),
              Event.xfer 0 (rxAt s 6),
              Event.portB (csRelease s.PORTB)] })
      ∧ (adns_get_report s).1.x = signed16 (rxAt s 4 * 256 + rxAt s 3)
      ∧ (adns_get_report s).1.y = signed16 (rxAt s 6 * 256 + rxAt s 5) := by
  refine ⟨adns_get_report_eq s, ?_, ?_⟩
  · rw [adns_get_report_eq]
    exact convertDeltaToInt_eq _ _ (rxAt_lt s 4) (rxAt_lt s 3)
  · rw [adns_get_report_eq]
    exact convertDeltaToInt_eq _ _ (rxAt_lt s 6) (rxAt_lt s 5)

/-! ## Boot and firmware load -/

theorem adns_init_events (spi_flags : Nat) (fw : Firmware) (s : HW) :
    eventsFrom s (adns_init spi_flags fw s) =
      bootHead spi_flags s ++ sromBurst fw s ++ bootTail fw.firmware_length s := by
  rw [adns_init_eq]
  simp [eventsFrom]

theorem burstData_sent (fw : Firmware) (s : HW) (k : Nat) :
    (burstData fw s k).filterMap txOf =
      (List.range fw.firmware_length).map (fun i => fw.firmware_data i % 256) := by
  unfold burstData
  induction fw.firmware_length with
  | zero => simp
  | succ n ih => simp [List.range_succ, ih, txOf]

theorem ofList_bytes (l : List Nat) :
    (List.range (Firmware.ofList l).firmware_length).map
        (fun i => (Firmware.ofList l).firmware_data i % 256) =
      l.map (fun b => b % 256) := by
  apply List.ext_getElem
  · simp [Firmware.ofList]
  · intro i h1 h2
    simp only [Firmware.ofList, List.length_map, List.length_range] at h1 h2 ⊢
    simp [List.getElem?_eq_getElem h1]

/-- C9. For every firmware image and every stream of device responses, the
hardware actions of `adns_init` are, in order: bus set-up and the chip-select
reset pulse (de-assert, assert, de-assert); write(0x3A, 0x5A); wait 50 ms;
reads of 0x02, 0x03, 0x04, 0x05, 0x06; write(0x39, 0x02); write(0x13, 0x1D);
wait 10 ms; write(0x13, 0x18); the firmware burst; wait 10 ms; read(0x20)
returning `v`; write(0x20, v & 0xF0); wait 1 ms.  The byte `v & 0xF0` has the
high nibble of `v` and a zero low nibble. -/
theorem adns_init_register_sequence (spi_flags : Nat) (fw : Firmware) (s : HW) :
    eventsFrom s (adns_init spi_flags fw s) =
        [Event.spiInit spi_flags, Event.ddrB ((s.DDRB ||| 1) % 256),
         Event.portB (csRelease s.PORTB), Event.portB (csAssert s.PORTB),
         Event.portB (csRelease s.PORTB)]
        ++ writeEvents s.PORTB 0x3A 0x5A (rxAt s 0) (rxAt s 1)
        ++ [Event.waitMs 50]
        ++ readEvents s.PORTB 0x02 (rxAt s 2) (rxAt s 3)
        ++ readEvents s.PORTB 0x03 (rxAt s 4) (rxAt s 5)
        ++ readEvents s.PORTB 0x04 (rxAt s 6) (rxAt s 7)
        ++ readEvents s.PORTB 0x05 (rxAt s 8) (rxAt s 9)
        ++ readEvents s.PORTB 0x06 (rxAt s 10) (rxAt s 11)
        ++ writeEvents s.PORTB 0x39 0x02 (rxAt s 12) (rxAt s 13)
        ++ writeEvents s.PORTB 0x13 0x1D (rxAt s 14) (rxAt s 15)
        ++ [Event.waitMs 10]
        ++ writeEvents s.PORTB 0x13 0x18 (rxAt s 16) (rxAt s 17)
        ++ sromBurst fw s
        ++ [Event.waitMs 10]
        ++ readEvents s.PORTB 0x20 (rxAt s (19 + fw.firmware_length))
             (rxAt s (20 + fw.firmware_length))
        ++ writeEvents s.PORTB 0x20 (rxAt s (20 + fw.firmware_length) &&& 0xF0)
             (rxAt s (21 + fw.firmware_length)) (rxAt s (22 + fw.firmware_length))
        ++ [Event.waitMs 1]
      ∧ (rxAt s (20 + fw.firmware_length) &&& 0xF0) % 16 = 0
      ∧ (rxAt s (20 + fw.firmware_length) &&& 0xF0) / 16
          = rxAt s (20 + fw.firmware_length) / 16 := by
  refine ⟨?_, (hi_nibble_val _ (rxAt_lt s _)).1, (hi_nibble_val _ (rxAt_lt s _)).2⟩
  rw [adns_init_events]
  simp [bootHead, bootTail]

/-- C4. For every firmware image, the firmware burst inside `adns_init` is:
assert chip-select, transfer 0xE2 (address 0x62 with the write flag 0x80),
wait 15 us, then for each image byte in index order transfer it and wait 15 us,
then de-assert chip-select.  The data bytes sent in the burst are exactly the
image bytes in their order, `firmware_length` of them. -/
theorem srom_burst_sequence (spi_flags : Nat) (fw : Firmware) (s : HW) (l : List Nat) :
    eventsFrom s (adns_init spi_flags fw s) =
        bootHead spi_flags s
        ++ ([Event.portB (csAssert s.PORTB),
             Event.xfer (0x62 ||| 0x80) (rxAt s 18),
             Event.waitUs 15]
            ++ (List.range fw.firmware_length).flatMap
                 (fun i => [Event.xfer (fw.firmware_data i % 256) (rxAt s (19 + i)),
                            Event.waitUs 15])
            ++ [Event.portB (csRelease s.PORTB)])
        ++ bootTail fw.firmware_length s
      ∧ ((List.range fw.firmware_length).flatMap
            (fun i => [Event.xfer (fw.firmware_data i % 256) (rxAt s (19 + i)),
                       Event.waitUs 15])).filterMap txOf
          = (List.range fw.firmware_length).map (fun i => fw.firmware_data i % 256)
      ∧ (((List.range fw.firmware_length).flatMap
            (fun i => [Event.xfer (fw.firmware_data i % 256) (rxAt s (19 + i)),
                       Event.waitUs 15])).filterMap txOf).length
          = fw.firmware_length
      ∧ (sromBurst (Firmware.ofList l) s).filterMap txOf = 0xE2 :: l.map (fun b => b % 256) := by
  have hb := burstData_sent fw s 19
  unfold burstData at hb
  refine ⟨?_, hb, ?_, ?_⟩
  · rw [adns_init_events]
    rfl
  · rw [hb]
    simp
  · have h := burstData_sent (Firmware.ofList l) s 19
    rw [ofList_bytes] at h
    simp [sromBurst, h, txOf]

/-- C5, as stated, fails: for the image `[0x01, 0x02, 0x03]` the transactions
of `adns_init` are not the reset pulse, write(0x3A,0x5A), four reads,
write(0x39,0x02), write(0x13,0x1D), write(0x13,0x18), the burst, read(0x20),
write(0x20, v & 0xF0), whatever the four read addresses and `v` are. -/
theorem adns_init_four_reads_refuted :
    ¬ ∃ a1 a2 a3 a4 v : Nat,
      (transactions none
          (eventsFrom hw0 (adns_init 0 (Firmware.ofList [0x01, 0x02, 0x03]) hw0))).map
          (List.map Prod.fst) =
        [[], [0x3A ||| 0x80, 0x5A],
         [a1 &&& 0x7F, 0], [a2 &&& 0x7F, 0], [a3 &&& 0x7F, 0], [a4 &&& 0x7F, 0],
         [0x39 ||| 0x80, 0x02], [0x13 ||| 0x80, 0x1D], [0x13 ||| 0x80, 0x18],
         [0x62 ||| 0x80, 0x01, 0x02, 0x03],
         [0x20 &&& 0x7F, 0], [0x20 ||| 0x80, v &&& 0xF0]] := by
  rintro ⟨a1, a2, a3, a4, v, h⟩
  have hl := congrArg List.length h
  have e : ((transactions none
      (eventsFrom hw0 (adns_init 0 (Firmware.ofList [0x01, 0x02, 0x03]) hw0))).map
      (List.map Prod.fst)).length = 13 := by decide
  rw [e] at hl
  simp at hl

/-- C5, amended. For the image `[0x01, 0x02, 0x03]`, every entry state and
every stream of device responses, the transactions of `adns_init` are exactly,
in order: the reset pulse, write(0x3A,0x5A), five discard-reads (registers
0x02, 0x03, 0x04, 0x05, 0x06), write(0x39,0x02), write(0x13,0x1D),
write(0x13,0x18), the burst 0x62|0x80 then 0x01, 0x02, 0x03, read(0x20)
returning `v`, write(0x20, v & 0xF0). -/
theorem adns_init_transactions (spi_flags : Nat) (s : HW) :
    transactions none
        (eventsFrom s (adns_init spi_flags (Firmware.ofList [0x01, 0x02, 0x03]) s)) =
      [[],
       [(0x3A ||| 0x80, rxAt s 0), (0x5A, rxAt s 1)],
       [(0x02, rxAt s 2), (0, rxAt s 3)],
       [(0x03, rxAt s 4), (0, rxAt s 5)],
       [(0x04, rxAt s 6), (0, rxAt s 7)],
       [(0x05, rxAt s 8), (0, rxAt s 9)],
       [(0x06, rxAt s 10), (0, rxAt s 11)],
       [(0x39 ||| 0x80, rxAt s 12), (0x02, rxAt s 13)],
       [(0x13 ||| 0x80, rxAt s 14), (0x1D, rxAt s 15)],
       [(0x13 ||| 0x80, rxAt s 16), (0x18, rxAt s 17)],
       [(0x62 ||| 0x80, rxAt s 18), (0x01, rxAt s 19), (0x02, rxAt s 20), (0x03, rxAt s 21)],
       [(0x20, rxAt s 22), (0, rxAt s 23)],
       [(0x20 ||| 0x80, rxAt s 24), (rxAt s 23 &&& 0xF0, rxAt s 25)]] := by
  rw [adns_init_events]
  simp [bootHead, sromBurst, bootTail, burstData, writeEvents, readEvents, transactions,
    Firmware.ofList, List.range_succ]
  decide

/-! ## Chip-select discipline -/

theorem disciplined_append (c : Bool) (es fs : List Event)
    (h1 : disciplined c es = true) (h2 : disciplined false fs = true) :
    disciplined c (es ++ fs) = true := by
  induction es generalizing c with
  | nil =>
    have hc : c = false := by simpa [disciplined] using h1
    subst hc
    simpa using h2
  | cons e es ih =>
    cases e with
    | portB v =>
      by_cases hv : v % 2 = 0
      · simp only [disciplined, hv, if_true, Bool.and_eq_true, List.cons_append] at h1 ⊢
        exact ⟨h1.1, ih true h1.2⟩
      · simp only [disciplined, hv, if_false, List.cons_append] at h1 ⊢
        exact ih false h1
    | xfer tx rx =>
      simp only [disciplined, Bool.and_eq_true, List.cons_append] at h1 ⊢
      exact ⟨h1.1, ih c h1.2⟩
    | spiInit f =>
      simp only [disciplined, List.cons_append] at h1 ⊢
      exact ih c h1
    | ddrB v =>
      simp only [disciplined, List.cons_append] at h1 ⊢
      exact ih c h1
    | waitUs n =>
      simp only [disciplined, List.cons_append] at h1 ⊢
      exact ih c h1
    | waitMs n =>
      simp only [disciplined, List.cons_append] at h1 ⊢
      exact ih c h1

theorem disciplined_flatMap (f g : Nat → Nat) (l : List Nat) (rest : List Event) :
    disciplined true
        (l.flatMap (fun i => [Event.xfer (f i) (g i), Event.waitUs 15]) ++ rest) =
      disciplined true rest := by
  induction l with
  | nil => simp
  | cons a l ih =>
    rw [List.flatMap_cons]
    simp only [List.cons_append, List.nil_append, List.append_assoc, disciplined, Bool.true_and]
    exact ih

theorem disciplined_init (c : Bool) (spi_flags : Nat) (fw : Firmware) (s : HW) :
    disciplined c (bootHead spi_flags s ++ sromBurst fw s ++ bootTail fw.firmware_length s)
      = true := by
  have hb := disciplined_flatMap (fun i => fw.firmware_data i % 256) (fun i => rxAt s (19 + i))
    (List.range fw.firmware_length)
  simp [bootHead, sromBurst, bootTail, burstData, writeEvents, readEvents, disciplined, hb]

theorem Op_run_spec (op : Op) (s : HW) :
    (op.run s).PORTB % 2 = 1 ∧
      ∃ es, (op.run s).trace = s.trace ++ es ∧ disciplined false es = true := by
  cases op with
  | init f fw =>
    refine ⟨by simp [Op.run, adns_init_eq], _, by simp only [Op.run, adns_init_eq]; rfl, ?_⟩
    exact disciplined_init false f fw s
  | get_config =>
    refine ⟨by simp [Op.run, adns_get_config_eq], _,
      by simp only [Op.run, adns_get_config_eq]; rfl, ?_⟩
    simp [disciplined]
  | set_config cpi =>
    refine ⟨by simp [Op.run, adns_set_config_eq], _,
      by simp only [Op.run, adns_set_config_eq]; rfl, ?_⟩
    simp [disciplined]
  | get_report =>
    refine ⟨by simp [Op.run, adns_get_report_eq], _,
      by simp only [Op.run, adns_get_report_eq]; rfl, ?_⟩
    simp [disciplined]
  | read a =>
    refine ⟨by simp [Op.run, adns_read_eq], _, by simp only [Op.run, adns_read_eq]; rfl, ?_⟩
    simp [disciplined]
  | write a v =>
    refine ⟨by simp [Op.run, adns_write_eq], _, by simp only [Op.run, adns_write_eq]; rfl, ?_⟩
    simp [disciplined]

theorem runOps_disciplined (ops : List Op) (s : HW) :
    ∃ es, (runOps ops s).trace = s.trace ++ es ∧
      (s.PORTB % 2 = 1 → disciplined false es = true) ∧
      (ops ≠ [] → (runOps ops s).PORTB % 2 = 1) := by
  induction ops generalizing s with
  | nil => exact ⟨[], by simp [runOps], fun h => by simp [disciplined], fun h => absurd rfl h⟩
  | cons op ops ih =>
    obtain ⟨hp, es, h1, h2⟩ := Op_run_spec op s
    obtain ⟨fs, h3, h4, h5⟩ := ih (op.run s)
    refine ⟨es ++ fs, by simp [runOps, h3, h1], fun _ => disciplined_append _ _ _ h2 (h4 hp), ?_⟩
    intro _
    by_cases ho : ops = []
    · subst ho
      simpa [runOps] using hp
    · simpa [runOps] using h5 ho

theorem session_disciplined (spi_flags : Nat) (fw : Firmware) (ops : List Op) (s : HW) :
    disciplined (csAsserted s)
      (eventsFrom s (runOps (Op.init spi_flags fw :: ops) s)) = true := by
  obtain ⟨fs, h3, h4, _⟩ := runOps_disciplined ops (adns_init spi_flags fw s)
  have hp : (adns_init spi_flags fw s).PORTB % 2 = 1 := by simp [adns_init_eq]
  have ht : (runOps (Op.init spi_flags fw :: ops) s).trace =
      s.trace ++ ((bootHead spi_flags s ++ sromBurst fw s ++ bootTail fw.firmware_length s)
        ++ fs) := by
    simp only [runOps, Op.run, h3]
    rw [adns_init_eq]
    simp
  rw [eventsFrom_append s _ _ ht]
  exact disciplined_append _ _ _ (disciplined_init _ spi_flags fw s) (h4 hp)

/-- C10. Chip-select discipline.  For every firmware image, every stream of
device responses and every entry state, in the log of each of `adns_init`,
`adns_get_config`, `adns_set_config`, `adns_get_report`, `adns_read` and
`adns_write`: no assert happens while chip-select is asserted, every byte
transfer happens while it is asserted, and it is de-asserted when the operation
returns.  Each log is read from its first event with the line de-asserted; for
`adns_init`, and for `adns_init` followed by any sequence of calls, the same
holds read from the line level found in `PORTB` at entry.  `adns_begin` and
`adns_end` clear and set bit 0 of `PORTB` and keep its other seven bits. -/
theorem chip_select_discipline (spi_flags : Nat) (fw : Firmware) (cpi a v : Nat)
    (ops : List Op) (s : HW) :
    disciplined false (eventsFrom s (adns_init spi_flags fw s)) = true
      ∧ disciplined false (eventsFrom s (adns_get_config s).2) = true
      ∧ disciplined false (eventsFrom s (adns_set_config cpi s)) = true
      ∧ disciplined false (eventsFrom s (adns_get_report s).2) = true
      ∧ disciplined false (eventsFrom s (adns_read a s).2) = true
      ∧ disciplined false (eventsFrom s (adns_write a v s)) = true
      ∧ disciplined (csAsserted s) (eventsFrom s (adns_init spi_flags fw s)) = true
      ∧ disciplined (csAsserted s)
          (eventsFrom s (runOps (Op.init spi_flags fw :: ops) s)) = true
      ∧ csAsserted (adns_init spi_flags fw s) = false
      ∧ csAsserted (adns_get_config s).2 = false
      ∧ csAsserted (adns_set_config cpi s) = false
      ∧ csAsserted (adns_get_report s).2 = false
      ∧ csAsserted (adns_read a s).2 = false
      ∧ csAsserted (adns_write a v s) = false
      ∧ adns_begin s =
          { s with PORTB := csAssert s.PORTB,
                   trace := s.trace ++ [Event.portB (csAssert s.PORTB)] }
      ∧ adns_end s =
          { s with PORTB := csRelease s.PORTB,
                   trace := s.trace ++ [Event.portB (csRelease s.PORTB)] }
      ∧ csAssert s.PORTB % 2 = 0 ∧ csAssert s.PORTB / 2 = s.PORTB % 256 / 2
      ∧ csRelease s.PORTB % 2 = 1 ∧ csRelease s.PORTB / 2 = s.PORTB % 256 / 2 := by
  refine ⟨?_, ?_, ?_, ?_, ?_, ?_, ?_, session_disciplined spi_flags fw ops s,
    ?_, ?_, ?_, ?_, ?_, ?_,
    adns_begin_eq s, adns_end_eq s, csAssert_mod_two _, ?_, csRelease_mod_two _, ?_⟩
  · rw [adns_init_events]
    exact disciplined_init _ spi_flags fw s
  · rw [adns_get_config_eq]
    simp [eventsFrom, disciplined]
  · rw [adns_set_config_eq]
    simp [eventsFrom, disciplined]
  · rw [adns_get_report_eq]
    simp [eventsFrom, disciplined]
  · rw [adns_read_eq]
    simp [eventsFrom, disciplined]
  · rw [adns_write_eq]
    simp [eventsFrom, disciplined]
  · rw [adns_init_events]
    exact disciplined_init _ spi_flags fw s
  · simp [csAsserted, adns_init_eq]
  · simp [csAsserted, adns_get_config_eq]
  · simp [csAsserted, adns_set_config_eq]
  · simp [csAsserted, adns_get_report_eq]
  · simp [csAsserted, adns_read_eq]
  · simp [csAsserted, adns_write_eq]
  · unfold csAssert
    omega
  · unfold csRelease
    omega

/-! ## Sanity checks of the vocabulary -/

theorem disciplined_rejects_nested_assert :
    disciplined false [Event.portB 0, Event.portB 0, Event.portB 1] = false := by
  decide

theorem disciplined_rejects_stray_transfer :
    disciplined false [Event.xfer 0 0] = false := by
  decide

theorem disciplined_rejects_unreleased :
    disciplined false [Event.portB 0, Event.xfer 0 0] = false := by
  decide

/-- Remark.  The discipline of a single operation is a property of its own log.
Called before `adns_init` in a state whose `PORTB` bit 0 is still 0,
`adns_read` stores the asserted level a second time; after `adns_init` the bit
is 1 between calls, which is what the theorem on sequences of calls uses. -/
theorem adns_read_entered_asserted :
    csAsserted hw0 = true ∧
      disciplined (csAsserted hw0) (eventsFrom hw0 (adns_read 0x0F hw0).2) = false := by
  decide

end Adns
